import Mathlib

/-!
Verification of the GreenGlow storefront server (Express + Prisma).

The development shallow-embeds the relevant request handlers as pure Lean
functions over an explicit relational store:

* server/src/index.js        POST /api/checkout
* server/src/routes/Cart.js  GET /cart, POST /cart/add, PATCH /cart/qty,
                             DELETE /cart/item/:productId, DELETE /cart/clear,
                             POST /cart/merge
* server/src/routes/Review.js POST /reviews, PATCH /reviews/:id
* server/src/routes/User.js  PATCH /me

JavaScript numeric request fields are modelled as `Option Int`
(`none` = absent or non-numeric input, i.e. a value whose `Number(...)`
coercion is `NaN`).  Monetary amounts (`DOUBLE PRECISION` in the schema)
are modelled as exact integers (minor currency units): the handlers only
add and multiply prices, so the algebra is representation-independent.
Database columns that no handler under scrutiny reads or writes
(category, img, description, timestamps) are omitted from the row types.
-/

namespace GreenGlow

/-- Cart.status enum from the Prisma schema: ACTIVE or CHECKED_OUT. -/
inductive CartStatus where
  | ACTIVE
  | CHECKED_OUT
deriving DecidableEq, Repr

/-- A row of the Product table (slug is unique, stock is an integer). -/
structure Product where
  id : Nat
  slug : String
  name : String
  price : Int
  stock : Int
deriving DecidableEq, Repr

/-- A row of the Cart table. -/
structure Cart where
  id : Nat
  userId : Nat
  status : CartStatus
deriving DecidableEq, Repr

/-- A row of the CartItem table (composite unique key (cartId, productId)). -/
structure CartItem where
  cartId : Nat
  productId : Nat
  qty : Int
deriving DecidableEq, Repr

/-- A row of the Sale table. -/
structure Sale where
  id : Nat
  userId : Nat
  total : Int
deriving DecidableEq, Repr

/-- A row of the SaleItem table: quantity plus the price snapshot. -/
structure SaleItem where
  saleId : Nat
  productId : Nat
  qty : Int
  price : Int
deriving DecidableEq, Repr

/-- The relational store touched by checkout and the cart routes.
`nextSaleId` and `nextCartId` model the SERIAL id sequences. -/
structure Store where
  products : List Product
  carts : List Cart
  cartItems : List CartItem
  sales : List Sale
  saleItems : List SaleItem
  nextSaleId : Nat
  nextCartId : Nat
deriving DecidableEq, Repr

/-- One entry of the checkout request body `items` array.  `qty` is the
numeric coercion of the submitted quantity (`none` for missing or NaN). -/
structure CheckoutItem where
  slug : String
  qty : Option Int
deriving DecidableEq, Repr

/-- The quantity coercion `Math.max(1, Number(i.qty) || 1)` used at every
site of index.js (lines 98, 102, 114): a missing or non-numeric quantity
coerces to NaN (falsy), 0 is falsy as well, and the outer max clamps
negative values to 1. -/
def normQty : Option Int → Int
  | none => 1
  | some z => max 1 (if z = 0 then 1 else z)

/-- First product of the list carrying the given slug; models both the
`bySlug` dictionary lookup of index.js and `findUnique`-style lookups
(the two agree because slug is a unique column). -/
def lookupSlug (ps : List Product) (s : String) : Option Product :=
  ps.find? (fun p => p.slug == s)

/-- Outcome of the stock-verification loop of index.js lines 96-100. -/
inductive StockCheck where
  | crash
  | insufficient (name : String)
  | ok
deriving DecidableEq, Repr

/-- The stock-verification loop: for each item, read `bySlug[i.slug]` and
compare the normalized quantity against its stock.  A missing dictionary
entry makes the JS code dereference `undefined` and throw (`crash`,
surfacing as a 500); it is unreachable behind the batch-lookup length
guard when product slugs are unique. -/
def stockLoop (ps : List Product) : List CheckoutItem → StockCheck
  | [] => .ok
  | i :: rest =>
    match lookupSlug ps i.slug with
    | none => .crash
    | some p =>
      if p.stock < normQty i.qty then .insufficient p.name
      else stockLoop ps rest

/-- Unit price of an item as read in the batch product lookup (0 only in
the unreachable unresolved case). -/
def lookedUpPrice (ps : List Product) (i : CheckoutItem) : Int :=
  match lookupSlug ps i.slug with
  | some p => p.price
  | none => 0

/-- The total of index.js lines 101-104:
`items.reduce((s, i) => s + bySlug[i.slug].price * Math.max(1, Number(i.qty) || 1), 0)`. -/
def computeTotal (ps : List Product) (items : List CheckoutItem) : Int :=
  items.foldl (fun s i => s + lookedUpPrice ps i * normQty i.qty) 0

/-- The SaleItem row created for one checkout item (index.js lines 116-118):
quantity is the normalized quantity, price is the snapshot of the price
read in the batch lookup.  The `none` branch is unreachable behind the
length guard plus a completed stock loop. -/
def snapshotItem (ps : List Product) (saleId : Nat) (i : CheckoutItem) : SaleItem :=
  match lookupSlug ps i.slug with
  | some p => { saleId := saleId, productId := p.id, qty := normQty i.qty, price := p.price }
  | none => { saleId := saleId, productId := 0, qty := normQty i.qty, price := 0 }

/-- One iteration of the transaction body loop (index.js lines 112-124):
create the SaleItem and decrement the stock of the product row with the
looked-up id. -/
def checkoutItemStep (ps : List Product) (saleId : Nat) (st : Store) (i : CheckoutItem) : Store :=
  match lookupSlug ps i.slug with
  | none => st
  | some p =>
    let q := normQty i.qty
    { st with
      saleItems := st.saleItems ++ [{ saleId := saleId, productId := p.id, qty := q, price := p.price }],
      products := st.products.map (fun pr =>
        if pr.id == p.id then { pr with stock := pr.stock - q } else pr) }

/-- The Prisma transaction of index.js lines 107-132: create the Sale, then
per item a SaleItem plus a stock decrement, then flip every ACTIVE cart of
the user to CHECKED_OUT.  `ps` is the batch-lookup product list read before
the transaction. -/
def applyTransaction (st : Store) (ps : List Product) (userId : Nat)
    (items : List CheckoutItem) (total : Int) : Store × Nat :=
  let saleId := st.nextSaleId
  let afterSale : Store :=
    { st with
      sales := st.sales ++ [{ id := saleId, userId := userId, total := total }],
      nextSaleId := st.nextSaleId + 1 }
  let afterItems := items.foldl (checkoutItemStep ps saleId) afterSale
  ({ afterItems with
      carts := afterItems.carts.map (fun c =>
        if c.userId == userId && c.status == CartStatus.ACTIVE
        then { c with status := CartStatus.CHECKED_OUT } else c) },
   saleId)

/-- HTTP outcome of POST /api/checkout. -/
inductive CheckoutResult where
  | badRequest (msg : String)
  | serverError
  | success (orderId : Nat)
deriving DecidableEq, Repr

/-- The batch product read of index.js line 89:
`prisma.product.findMany({ where: { slug: { in: slugs } } })`. -/
def batchLookup (ps : List Product) (slugs : List String) : List Product :=
  ps.filter (fun p => decide (p.slug ∈ slugs))

/-- POST /api/checkout (index.js lines 82-139).  `body` is
`Array.isArray(req.body?.items) ? req.body.items : []` — `none` models a
missing or non-array `items` field. -/
def checkout (st : Store) (userId : Nat) (body : Option (List CheckoutItem)) :
    CheckoutResult × Store :=
  let items := body.getD []
  if items.isEmpty then (.badRequest "Empty cart", st)
  else
    let slugs := items.map (fun i => i.slug)
    let products := batchLookup st.products slugs
    if products.length ≠ slugs.length then (.badRequest "Unknown product in cart", st)
    else
      match stockLoop products items with
      | .crash => (.serverError, st)
      | .insufficient name => (.badRequest ("Insufficient stock for " ++ name), st)
      | .ok =>
        let total := computeTotal products items
        let r := applyTransaction st products userId items total
        (.success r.2, r.1)

/-! Cart routes (server/src/routes/Cart.js). -/

/-- Product row referenced by a cart item id (the `include: product` join). -/
def productById (st : Store) (pid : Nat) : Option Product :=
  st.products.find? (fun p => p.id == pid)

/-- The JSON shape returned by the cart routes: the cart row plus its items,
each item carrying its joined product row
(`include: { items: { include: { product: true } } }`). -/
structure CartView where
  cart : Cart
  items : List (CartItem × Option Product)
deriving DecidableEq, Repr

/-- Render a cart with its line items and their product detail attached. -/
def cartView (st : Store) (c : Cart) : CartView :=
  { cart := c,
    items := (st.cartItems.filter (fun it => it.cartId == c.id)).map
      (fun it => (it, productById st it.productId)) }

/-- The re-read `prisma.cart.findUnique({ where: { id }, include: ... })`
issued by every cart mutation before responding. -/
def refreshCart (st : Store) (cartId : Nat) : Option CartView :=
  (st.carts.find? (fun c => c.id == cartId)).map (cartView st)

/-- Cart.js getOrCreateActiveCart (lines 45-57): return the ACTIVE cart of
the user, creating a fresh empty one when none exists (status defaults to
ACTIVE in the schema). -/
def getOrCreateActiveCart (st : Store) (userId : Nat) : Store × Cart :=
  match st.carts.find? (fun c => c.userId == userId && c.status == CartStatus.ACTIVE) with
  | some c => (st, c)
  | none =>
    let c : Cart := { id := st.nextCartId, userId := userId, status := CartStatus.ACTIVE }
    ({ st with carts := st.carts ++ [c], nextCartId := st.nextCartId + 1 }, c)

/-- HTTP outcome of a cart route.  `cartBody` is `res.json(updated)` where
`updated` may in principle be null, `okFlag` is `res.json({ ok: true })`,
and `dbError` models an ORM error thrown out of the handler (e.g. an
update/delete on a missing row). -/
inductive CartResponse where
  | badRequest (msg : String)
  | cartBody (v : Option CartView)
  | okFlag
  | dbError
deriving DecidableEq, Repr

/-- The manual upsert shared by POST /cart/add (lines 80-93) and the
POST /cart/merge loop body (lines 166-179): increment the qty of the
existing (cartId, productId) line, or insert a new line. -/
def upsertLine (st : Store) (cartId pid : Nat) (q : Int) : Store :=
  match st.cartItems.find? (fun it => it.cartId == cartId && it.productId == pid) with
  | some existing =>
    { st with cartItems := st.cartItems.map (fun it =>
        if it.cartId == cartId && it.productId == pid
        then { it with qty := existing.qty + q } else it) }
  | none =>
    { st with cartItems := st.cartItems ++ [{ cartId := cartId, productId := pid, qty := q }] }

/-- GET /api/cart (Cart.js lines 63-66). -/
def getCart (st : Store) (userId : Nat) : Store × CartResponse :=
  let r := getOrCreateActiveCart st userId
  (r.1, .cartBody (some (cartView r.1 r.2)))

/-- POST /api/cart/add (Cart.js lines 73-100).  `productId = none` models a
missing or non-numeric id; a present id of 0 is falsy and also rejected. -/
def cartAdd (st : Store) (userId : Nat) (productId : Option Nat) (qty : Option Int) :
    Store × CartResponse :=
  match productId with
  | none => (st, .badRequest "productId requis")
  | some pid =>
    if pid = 0 then (st, .badRequest "productId requis")
    else
      let q := normQty qty
      let r := getOrCreateActiveCart st userId
      let st2 := upsertLine r.1 r.2.id pid q
      (st2, .cartBody (refreshCart st2 r.2.id))

/-- One entry of the guest-cart merge body. -/
structure GuestItem where
  productId : Nat
  qty : Option Int
deriving DecidableEq, Repr

/-- POST /api/cart/merge (Cart.js lines 158-187): fold the guest lines into
the active cart by the same manual upsert; `body = none` models a
non-array request body. -/
def cartMerge (st : Store) (userId : Nat) (body : Option (List GuestItem)) :
    Store × CartResponse :=
  let guestItems := body.getD []
  let r := getOrCreateActiveCart st userId
  let st2 := guestItems.foldl (fun acc gi => upsertLine acc r.2.id gi.productId (normQty gi.qty)) r.1
  (st2, .cartBody (refreshCart st2 r.2.id))

/-- A row of the Review table (columns not touched by the claims omitted). -/
structure Review where
  id : Nat
  name : String
  text : String
  stars : Int
  published : Bool
deriving DecidableEq, Repr

/-- The Review table plus its id sequence. -/
structure ReviewDb where
  reviews : List Review
  nextId : Nat
deriving DecidableEq, Repr

/-- HTTP outcome of a review route. -/
inductive ReviewResult where
  | badRequest (msg : String)
  | created (r : Review)
  | ok (r : Review)
  | dbError
deriving DecidableEq, Repr

/-- POST /api/reviews (Review.js lines 38-53).  `stars = none` models a
missing or non-numeric stars field (NaN is falsy, as is 0, so both fail
the required-fields guard); an empty string is the falsy case of name and
text.  A created review starts unpublished. -/
def postReview (db : ReviewDb) (name text : String) (stars : Option Int) :
    ReviewDb × ReviewResult :=
  match stars with
  | none => (db, .badRequest "name, text, stars requis")
  | some s =>
    if name = "" ∨ text = "" ∨ s = 0 then (db, .badRequest "name, text, stars requis")
    else if s < 1 ∨ 5 < s then (db, .badRequest "stars doit être entre 1 et 5")
    else
      let r : Review := { id := db.nextId, name := name, text := text, stars := s, published := false }
      ({ reviews := db.reviews ++ [r], nextId := db.nextId + 1 }, .created r)

/-- Field-wise application of the PATCH /reviews/:id `data` object. -/
def applyReviewPatch (r : Review) (name? text? : Option String) (stars? : Option Int)
    (published? : Option Bool) : Review :=
  { r with
    name := name?.getD r.name,
    text := text?.getD r.text,
    stars := stars?.getD r.stars,
    published := published?.getD r.published }

/-- The `prisma.review.update({ where: { id }, data })` call: the ORM throws
when no row has the id (surfacing as an unhandled error, not a 400). -/
def runReviewUpdate (db : ReviewDb) (id : Nat) (name? text? : Option String)
    (stars? : Option Int) (published? : Option Bool) : ReviewDb × ReviewResult :=
  match db.reviews.find? (fun r => r.id == id) with
  | none => (db, .dbError)
  | some r0 =>
    let updated := applyReviewPatch r0 name? text? stars? published?
    ({ db with reviews := db.reviews.map (fun r =>
        if r.id == id then applyReviewPatch r name? text? stars? published? else r) },
     .ok updated)

/-- PATCH /api/reviews/:id (Review.js lines 60-78): a present stars field is
range-checked before any write; the other fields are copied into `data`
unchecked.  `stars? = none` models an absent stars field. -/
def patchReview (db : ReviewDb) (id : Nat) (name? text? : Option String)
    (stars? : Option Int) (published? : Option Bool) : ReviewDb × ReviewResult :=
  match stars? with
  | some s =>
    if s < 1 ∨ 5 < s then (db, .badRequest "stars doit être entre 1 et 5")
    else runReviewUpdate db id name? text? (some s) published?
  | none => runReviewUpdate db id name? text? none published?

/-! PATCH /api/me (server/src/routes/User.js). -/

/-- A row of the User table. `password` holds the bcrypt hash. -/
structure User where
  id : Nat
  email : String
  name : String
  admin : Bool
  password : String
deriving DecidableEq, Repr

/-- The `select: id, email, name, admin` projection returned to the client. -/
structure PublicUser where
  id : Nat
  email : String
  name : String
  admin : Bool
deriving DecidableEq, Repr

/-- The claims sealed into the auth cookie by setAuthCookie. -/
structure AuthClaims where
  id : Nat
  email : String
  admin : Bool
deriving DecidableEq, Repr

/-- HTTP outcome of PATCH /api/me.  `ok` carries the response body and
`some claims` exactly when setAuthCookie re-issued the credential. -/
inductive MeResult where
  | badRequest (msg : String)
  | unauthorized (msg : String)
  | notFound (msg : String)
  | conflict (msg : String)
  | ok (user : PublicUser) (newCookie : Option AuthClaims)
deriving DecidableEq, Repr

/-- The trimmed email candidate of User.js line 319: `data.email` is set
only when the submitted email is a nonempty string differing from the
stored one. -/
def emailCandidate (email? : Option String) (current : String) : Option String :=
  match email? with
  | some e => if e.trim ≠ "" ∧ e.trim ≠ current then some e.trim else none
  | none => none

/-- The hashed-password candidate of User.js lines 327-329. -/
def passwordCandidate (hash : String → String) (newPassword? : Option String) : Option String :=
  match newPassword? with
  | some np => if 0 < np.length then some (hash np) else none
  | none => none

/-- PATCH /api/me (User.js lines 299-350).  `hash` abstracts bcrypt: a
stored hash matches a submitted secret exactly when it equals `hash`
of that secret.  Fields are `Option String` (`none` = absent or not a
string, the `typeof x === string` guards). -/
def patchMe (hash : String → String) (users : List User) (meId : Nat)
    (name? email? currentPassword? newPassword? : Option String) :
    List User × MeResult :=
  match currentPassword? with
  | none => (users, .badRequest "Mot de passe actuel requis")
  | some cur =>
    if cur = "" then (users, .badRequest "Mot de passe actuel requis")
    else
      match users.find? (fun u => u.id == meId) with
      | none => (users, .notFound "Utilisateur introuvable")
      | some me =>
        if hash cur ≠ me.password then (users, .unauthorized "Mot de passe actuel invalide")
        else
          let nameSet := name?.map (fun s => s.trim)
          let emailSet := emailCandidate email? me.email
          let passSet := passwordCandidate hash newPassword?
          let emailTaken : Bool :=
            match emailSet with
            | some newEmail =>
              match users.find? (fun u => u.email == newEmail) with
              | some ex => ex.id != me.id
              | none => false
            | none => false
          if emailTaken then (users, .conflict "Email déjà utilisé")
          else if nameSet = none ∧ emailSet = none ∧ passSet = none then
            (users, .ok { id := me.id, email := me.email, name := me.name, admin := me.admin } none)
          else
            let updated : User :=
              { me with
                name := nameSet.getD me.name,
                email := emailSet.getD me.email,
                password := passSet.getD me.password }
            let users2 := users.map (fun u =>
              if u.id == me.id then
                { u with
                  name := nameSet.getD u.name,
                  email := emailSet.getD u.email,
                  password := passSet.getD u.password }
              else u)
            let pub : PublicUser := { id := updated.id, email := updated.email, name := updated.name, admin := updated.admin }
            let cookie : Option AuthClaims :=
              if updated.email ≠ me.email
              then some { id := updated.id, email := updated.email, admin := updated.admin }
              else none
            (users2, .ok pub cookie)

/-! Lemmas about slug lookups and the batch-lookup length guard. -/

theorem lookupSlug_eq_some {ps : List Product} {s : String} {p : Product}
    (h : lookupSlug ps s = some p) : p ∈ ps ∧ p.slug = s := by
  refine ⟨List.mem_of_find?_eq_some h, ?_⟩
  simpa using List.find?_some h

theorem lookupSlug_isSome {ps : List Product} {s : String}
    (h : ∃ p ∈ ps, p.slug = s) : ∃ p, lookupSlug ps s = some p := by
  have hex : ∃ p ∈ ps, (fun q : Product => q.slug == s) p = true := by
    obtain ⟨p, hp, hs⟩ := h
    exact ⟨p, hp, by simp [hs]⟩
  exact Option.isSome_iff_exists.mp (List.find?_isSome.mpr hex)

theorem lookupSlug_filter (ps : List Product) (f : Product → Bool) (s : String)
    (hf : ∀ p : Product, p.slug = s → f p = true) :
    lookupSlug (ps.filter f) s = lookupSlug ps s := by
  induction ps with
  | nil => rfl
  | cons p rest ih =>
    by_cases hps : p.slug = s
    · have hfp := hf p hps
      simp [lookupSlug, List.filter_cons, hfp, hps]
    · by_cases hfp : f p = true
      · simpa [lookupSlug, List.filter_cons, hfp, hps] using ih
      · simp only [Bool.not_eq_true] at hfp
        simpa [lookupSlug, List.filter_cons, hfp, hps] using ih

theorem batchLookup_mem {ps : List Product} {slugs : List String} {p : Product}
    (h : p ∈ batchLookup ps slugs) : p ∈ ps ∧ p.slug ∈ slugs := by
  have := List.mem_filter.mp h
  exact ⟨this.1, by simpa using this.2⟩

theorem batchLookup_lookup (ps : List Product) (slugs : List String) (s : String)
    (hs : s ∈ slugs) : lookupSlug (batchLookup ps slugs) s = lookupSlug ps s := by
  refine lookupSlug_filter ps _ s (fun p hp => ?_)
  simpa [hp] using hs

theorem batchLookup_slugs_nodup {ps : List Product} (slugs : List String)
    (hnod : (ps.map Product.slug).Nodup) :
    ((batchLookup ps slugs).map Product.slug).Nodup :=
  List.Nodup.sublist (List.Sublist.map Product.slug (List.filter_sublist ps)) hnod

theorem batchLookup_slugs_subset {ps : List Product} {slugs : List String} :
    ∀ x ∈ (batchLookup ps slugs).map Product.slug, x ∈ slugs := by
  intro x hx
  obtain ⟨p, hp, hpx⟩ := List.mem_map.mp hx
  exact hpx ▸ (batchLookup_mem hp).2

theorem batchLookup_length_lt_of_unresolved {ps : List Product} {slugs : List String}
    (hnod : (ps.map Product.slug).Nodup) (s : String) (hs : s ∈ slugs)
    (hun : ∀ p ∈ ps, p.slug ≠ s) :
    (batchLookup ps slugs).length < slugs.length := by
  have hsub : (batchLookup ps slugs).map Product.slug ⊆ slugs.dedup.erase s := by
    intro x hx
    obtain ⟨p, hp, hpx⟩ := List.mem_map.mp hx
    have hxs : x ≠ s := hpx ▸ hun p (batchLookup_mem hp).1
    exact (List.mem_erase_of_ne hxs).mpr (List.mem_dedup.mpr (hpx ▸ (batchLookup_mem hp).2))
  have hsp := (batchLookup_slugs_nodup slugs hnod).subperm hsub
  have h1 : ((batchLookup ps slugs).map Product.slug).length ≤ (slugs.dedup.erase s).length :=
    hsp.length_le
  have h2 : (slugs.dedup.erase s).length = slugs.dedup.length - 1 :=
    List.length_erase_of_mem (List.mem_dedup.mpr hs)
  have h3 : slugs.dedup.length ≤ slugs.length := (List.dedup_sublist slugs).length_le
  have h4 : 0 < slugs.dedup.length := List.length_pos.mpr (by
    intro hnil
    exact absurd (List.mem_dedup.mpr hs) (by simp [hnil]))
  have h5 : (batchLookup ps slugs).length = ((batchLookup ps slugs).map Product.slug).length :=
    (List.length_map _ _).symm
  omega

theorem batchLookup_length_lt_of_dup {ps : List Product} {slugs : List String}
    (hnod : (ps.map Product.slug).Nodup) (hdup : ¬ slugs.Nodup) :
    (batchLookup ps slugs).length < slugs.length := by
  have hsub : (batchLookup ps slugs).map Product.slug ⊆ slugs.dedup := fun x hx =>
    List.mem_dedup.mpr (batchLookup_slugs_subset x hx)
  have hsp := (batchLookup_slugs_nodup slugs hnod).subperm hsub
  have h1 := hsp.length_le
  have h3 : slugs.dedup.length ≤ slugs.length := (List.dedup_sublist slugs).length_le
  have h4 : slugs.dedup.length ≠ slugs.length := by
    intro he
    exact hdup ((List.dedup_sublist slugs).eq_of_length he ▸ List.nodup_dedup slugs)
  have h5 : (batchLookup ps slugs).length = ((batchLookup ps slugs).map Product.slug).length :=
    (List.length_map _ _).symm
  omega

theorem batchLookup_length_eq {ps : List Product} {slugs : List String}
    (hnod : (ps.map Product.slug).Nodup)
    (hlen : (batchLookup ps slugs).length = slugs.length) :
    slugs.Nodup ∧ ∀ s ∈ slugs, ∃ p ∈ batchLookup ps slugs, p.slug = s := by
  have hsub : (batchLookup ps slugs).map Product.slug ⊆ slugs.dedup := fun x hx =>
    List.mem_dedup.mpr (batchLookup_slugs_subset x hx)
  have hsp := (batchLookup_slugs_nodup slugs hnod).subperm hsub
  have h1 := hsp.length_le
  have h3 : slugs.dedup.length ≤ slugs.length := (List.dedup_sublist slugs).length_le
  have h5 : (batchLookup ps slugs).length = ((batchLookup ps slugs).map Product.slug).length :=
    (List.length_map _ _).symm
  have hde : slugs.dedup.length = slugs.length := by omega
  have hdedup : slugs.dedup = slugs := (List.dedup_sublist slugs).eq_of_length hde
  refine ⟨hdedup ▸ List.nodup_dedup slugs, fun s hs => ?_⟩
  have hperm := hsp.perm_of_length_le (by omega)
  have hmem : s ∈ (batchLookup ps slugs).map Product.slug :=
    hperm.mem_iff.mpr (List.mem_dedup.mpr hs)
  obtain ⟨p, hp, hpx⟩ := List.mem_map.mp hmem
  exact ⟨p, hp, hpx⟩

/-! Lemmas about the stock-verification loop. -/

theorem stockLoop_cons_none {ps : List Product} {i : CheckoutItem} {rest : List CheckoutItem}
    (hl : lookupSlug ps i.slug = none) : stockLoop ps (i :: rest) = .crash := by
  rw [stockLoop, hl]

theorem stockLoop_cons_some {ps : List Product} {i : CheckoutItem} {rest : List CheckoutItem}
    {p : Product} (hl : lookupSlug ps i.slug = some p) :
    stockLoop ps (i :: rest) =
      if p.stock < normQty i.qty then .insufficient p.name else stockLoop ps rest := by
  rw [stockLoop, hl]

theorem stockLoop_ok_iff (ps : List Product) (items : List CheckoutItem) :
    stockLoop ps items = .ok ↔
    ∀ i ∈ items, ∃ p, lookupSlug ps i.slug = some p ∧ normQty i.qty ≤ p.stock := by
  induction items with
  | nil => simp [stockLoop]
  | cons i rest ih =>
    constructor
    · intro h j hj
      cases hl : lookupSlug ps i.slug with
      | none => rw [stockLoop_cons_none hl] at h; exact absurd h (by simp)
      | some p =>
        rw [stockLoop_cons_some hl] at h
        by_cases hst : p.stock < normQty i.qty
        · rw [if_pos hst] at h; exact absurd h (by simp)
        · rw [if_neg hst] at h
          rcases List.mem_cons.mp hj with hji | hjr
          · exact hji ▸ ⟨p, hl, le_of_not_lt hst⟩
          · exact ih.mp h j hjr
    · intro h
      obtain ⟨p, hl, hle⟩ := h i (List.mem_cons_self i rest)
      rw [stockLoop_cons_some hl, if_neg (not_lt.mpr hle)]
      exact ih.mpr (fun j hj => h j (List.mem_cons_of_mem i hj))

theorem stockLoop_not_crash (ps : List Product) (items : List CheckoutItem)
    (h : ∀ i ∈ items, ∃ p, lookupSlug ps i.slug = some p) :
    stockLoop ps items ≠ .crash := by
  induction items with
  | nil => simp [stockLoop]
  | cons i rest ih =>
    obtain ⟨p, hl⟩ := h i (List.mem_cons_self i rest)
    rw [stockLoop_cons_some hl]
    by_cases hst : p.stock < normQty i.qty
    · rw [if_pos hst]; simp
    · rw [if_neg hst]
      exact ih (fun j hj => h j (List.mem_cons_of_mem i hj))

/-! Characterization of the transaction body fold. -/

/-- Total amount by which the transaction loop decrements the stock of the
product row with the given id. -/
def stockDecrements (ps : List Product) (items : List CheckoutItem) (pid : Nat) : Int :=
  (items.map (fun i =>
    match lookupSlug ps i.slug with
    | some p => if p.id = pid then normQty i.qty else 0
    | none => 0)).sum

theorem stockDecrements_nil (ps : List Product) (pid : Nat) :
    stockDecrements ps [] pid = 0 := rfl

theorem stockDecrements_cons_none {ps : List Product} {i : CheckoutItem}
    {rest : List CheckoutItem} {pid : Nat} (hl : lookupSlug ps i.slug = none) :
    stockDecrements ps (i :: rest) pid = stockDecrements ps rest pid := by
  simp [stockDecrements, hl]

theorem stockDecrements_cons_some {ps : List Product} {i : CheckoutItem}
    {rest : List CheckoutItem} {pid : Nat} {p : Product} (hl : lookupSlug ps i.slug = some p) :
    stockDecrements ps (i :: rest) pid =
      (if p.id = pid then normQty i.qty else 0) + stockDecrements ps rest pid := by
  simp [stockDecrements, hl]

/-- The SaleItem row appended for an item by the transaction loop, as an
optional value (skipped in the unreachable unresolved case). -/
def saleItemOf (ps : List Product) (saleId : Nat) (i : CheckoutItem) : Option SaleItem :=
  (lookupSlug ps i.slug).map (fun p =>
    { saleId := saleId, productId := p.id, qty := normQty i.qty, price := p.price })

theorem saleItemOf_cons_none {ps : List Product} {i : CheckoutItem} {saleId : Nat}
    (hl : lookupSlug ps i.slug = none) (rest : List CheckoutItem) :
    (i :: rest).filterMap (saleItemOf ps saleId) = rest.filterMap (saleItemOf ps saleId) := by
  rw [List.filterMap_cons]
  simp [saleItemOf, hl]

theorem saleItemOf_cons_some {ps : List Product} {i : CheckoutItem} {saleId : Nat}
    {p : Product} (hl : lookupSlug ps i.slug = some p) (rest : List CheckoutItem) :
    (i :: rest).filterMap (saleItemOf ps saleId) =
      ({ saleId := saleId, productId := p.id, qty := normQty i.qty, price := p.price } : SaleItem)
        :: rest.filterMap (saleItemOf ps saleId) := by
  rw [List.filterMap_cons]
  simp [saleItemOf, hl]

theorem foldl_checkoutItemStep (ps : List Product) (saleId : Nat)
    (items : List CheckoutItem) (st : Store) :
    items.foldl (checkoutItemStep ps saleId) st =
      { st with
        products := st.products.map (fun pr =>
          { pr with stock := pr.stock - stockDecrements ps items pr.id }),
        saleItems := st.saleItems ++ items.filterMap (saleItemOf ps saleId) } := by
  induction items generalizing st with
  | nil =>
    have hmap : st.products.map (fun pr =>
        { pr with stock := pr.stock - stockDecrements ps [] pr.id }) = st.products := by
      have hfun : (fun pr : Product =>
          { pr with stock := pr.stock - stockDecrements ps [] pr.id }) = id := by
        funext pr
        cases pr
        simp [stockDecrements_nil]
      rw [hfun, List.map_id]
    simp [hmap]
  | cons i rest ih =>
    rw [List.foldl_cons, ih]
    cases hl : lookupSlug ps i.slug with
    | none =>
      have hstep : checkoutItemStep ps saleId st i = st := by
        rw [checkoutItemStep, hl]
      rw [hstep, saleItemOf_cons_none hl]
      have hprod : st.products.map (fun pr =>
            { pr with stock := pr.stock - stockDecrements ps rest pr.id }) =
          st.products.map (fun pr =>
            { pr with stock := pr.stock - stockDecrements ps (i :: rest) pr.id }) :=
        List.map_congr_left (fun pr _ => by rw [stockDecrements_cons_none hl])
      rw [hprod]
    | some p =>
      have hstep : checkoutItemStep ps saleId st i =
          { st with
            saleItems := st.saleItems ++
              [{ saleId := saleId, productId := p.id, qty := normQty i.qty, price := p.price }],
            products := st.products.map (fun pr =>
              if pr.id == p.id then { pr with stock := pr.stock - normQty i.qty } else pr) } := by
        rw [checkoutItemStep, hl]
      rw [hstep, saleItemOf_cons_some hl]
      have hprod : (st.products.map (fun pr =>
            if pr.id == p.id then { pr with stock := pr.stock - normQty i.qty } else pr)).map
              (fun pr => { pr with stock := pr.stock - stockDecrements ps rest pr.id }) =
          st.products.map (fun pr =>
            { pr with stock := pr.stock - stockDecrements ps (i :: rest) pr.id }) := by
        rw [List.map_map]
        refine List.map_congr_left (fun pr _ => ?_)
        by_cases hid : pr.id = p.id
        · simp only [Function.comp, hid, beq_self_eq_true, if_true]
          rw [stockDecrements_cons_some hl, if_pos rfl, sub_sub]
        · have hbeq : (pr.id == p.id) = false := by simp [hid]
          simp only [Function.comp, hbeq, Bool.false_eq_true, if_false]
          rw [stockDecrements_cons_some hl, if_neg (fun he => hid (Eq.symm he)), zero_add]
      rw [hprod, List.append_assoc, List.singleton_append]

/-! Unfolding and characterization lemmas for the checkout handler. -/

theorem computeTotal_eq_sum (ps : List Product) (items : List CheckoutItem) :
    computeTotal ps items =
      (items.map (fun i => lookedUpPrice ps i * normQty i.qty)).sum := by
  have hgen : ∀ (l : List CheckoutItem) (a : Int),
      l.foldl (fun s i => s + lookedUpPrice ps i * normQty i.qty) a =
        a + (l.map (fun i => lookedUpPrice ps i * normQty i.qty)).sum := by
    intro l
    induction l with
    | nil => intro a; simp
    | cons x xs ih => intro a; simp [List.foldl_cons, ih, add_assoc]
  simpa [computeTotal] using hgen items 0

theorem lookedUpPrice_congr {ps qs : List Product} {i : CheckoutItem}
    (h : lookupSlug ps i.slug = lookupSlug qs i.slug) :
    lookedUpPrice ps i = lookedUpPrice qs i := by
  unfold lookedUpPrice
  rw [h]

theorem stockDecrements_congr {ps qs : List Product} {items : List CheckoutItem} {pid : Nat}
    (h : ∀ i ∈ items, lookupSlug ps i.slug = lookupSlug qs i.slug) :
    stockDecrements ps items pid = stockDecrements qs items pid := by
  unfold stockDecrements
  exact congrArg List.sum (List.map_congr_left (fun i hi => by rw [h i hi]))

theorem filterMap_saleItemOf_eq_map {ps qs : List Product} {items : List CheckoutItem}
    {saleId : Nat}
    (hcongr : ∀ i ∈ items, lookupSlug ps i.slug = lookupSlug qs i.slug)
    (hres : ∀ i ∈ items, ∃ p, lookupSlug qs i.slug = some p) :
    items.filterMap (saleItemOf ps saleId) = items.map (snapshotItem qs saleId) := by
  induction items with
  | nil => rfl
  | cons i rest ih =>
    obtain ⟨p, hp⟩ := hres i (List.mem_cons_self i rest)
    have hps : lookupSlug ps i.slug = some p := (hcongr i (List.mem_cons_self i rest)).trans hp
    rw [saleItemOf_cons_some hps, List.map_cons]
    have hsnap : snapshotItem qs saleId i =
        { saleId := saleId, productId := p.id, qty := normQty i.qty, price := p.price } := by
      rw [snapshotItem, hp]
    rw [hsnap]
    exact congrArg _ (ih (fun j hj => hcongr j (List.mem_cons_of_mem i hj))
      (fun j hj => hres j (List.mem_cons_of_mem i hj)))

theorem applyTransaction_snd (st : Store) (ps : List Product) (u : Nat)
    (items : List CheckoutItem) (total : Int) :
    (applyTransaction st ps u items total).2 = st.nextSaleId := rfl

theorem applyTransaction_fst (st : Store) (ps : List Product) (u : Nat)
    (items : List CheckoutItem) (total : Int) :
    (applyTransaction st ps u items total).1 =
      { st with
        sales := st.sales ++ [{ id := st.nextSaleId, userId := u, total := total }],
        nextSaleId := st.nextSaleId + 1,
        products := st.products.map (fun pr =>
          { pr with stock := pr.stock - stockDecrements ps items pr.id }),
        saleItems := st.saleItems ++ items.filterMap (saleItemOf ps st.nextSaleId),
        carts := st.carts.map (fun c =>
          if c.userId == u && c.status == CartStatus.ACTIVE
          then { c with status := CartStatus.CHECKED_OUT } else c) } := by
  unfold applyTransaction
  dsimp only
  rw [foldl_checkoutItemStep]

theorem checkout_none_eq (st : Store) (u : Nat) :
    checkout st u none = (.badRequest "Empty cart", st) := rfl

theorem checkout_cons_eq (st : Store) (u : Nat) (i : CheckoutItem) (rest : List CheckoutItem) :
    checkout st u (some (i :: rest)) =
      if (batchLookup st.products ((i :: rest).map (fun j => j.slug))).length
          ≠ ((i :: rest).map (fun j => j.slug)).length
      then (.badRequest "Unknown product in cart", st)
      else
        match stockLoop (batchLookup st.products ((i :: rest).map (fun j => j.slug))) (i :: rest) with
        | .crash => (.serverError, st)
        | .insufficient name => (.badRequest ("Insufficient stock for " ++ name), st)
        | .ok =>
          (.success st.nextSaleId,
           (applyTransaction st (batchLookup st.products ((i :: rest).map (fun j => j.slug))) u
              (i :: rest)
              (computeTotal (batchLookup st.products ((i :: rest).map (fun j => j.slug)))
                (i :: rest))).1) := rfl

theorem checkout_cases (st : Store) (u : Nat) (body : Option (List CheckoutItem)) :
    (∃ msg, checkout st u body = (.badRequest msg, st)) ∨
    checkout st u body = (.serverError, st) ∨
    (∃ items, body = some items ∧ items ≠ [] ∧
      (batchLookup st.products (items.map (fun i => i.slug))).length
        = (items.map (fun i => i.slug)).length ∧
      stockLoop (batchLookup st.products (items.map (fun i => i.slug))) items = .ok ∧
      checkout st u body =
        (.success st.nextSaleId,
         (applyTransaction st (batchLookup st.products (items.map (fun i => i.slug))) u items
            (computeTotal (batchLookup st.products (items.map (fun i => i.slug))) items)).1)) := by
  cases body with
  | none => exact Or.inl ⟨"Empty cart", rfl⟩
  | some items =>
    cases items with
    | nil => exact Or.inl ⟨"Empty cart", rfl⟩
    | cons i rest =>
      by_cases hlen : (batchLookup st.products ((i :: rest).map (fun j => j.slug))).length
          ≠ ((i :: rest).map (fun j => j.slug)).length
      · refine Or.inl ⟨"Unknown product in cart", ?_⟩
        rw [checkout_cons_eq, if_pos hlen]
      · cases hsl : stockLoop (batchLookup st.products ((i :: rest).map (fun j => j.slug))) (i :: rest) with
        | crash =>
          refine Or.inr (Or.inl ?_)
          rw [checkout_cons_eq, if_neg hlen, hsl]
        | insufficient n =>
          refine Or.inl ⟨"Insufficient stock for " ++ n, ?_⟩
          rw [checkout_cons_eq, if_neg hlen, hsl]
        | ok =>
          refine Or.inr (Or.inr ⟨i :: rest, rfl, by simp, not_ne_iff.mp hlen, hsl, ?_⟩)
          rw [checkout_cons_eq, if_neg hlen, hsl]

theorem checkout_success_resolves {st : Store} {items : List CheckoutItem}
    (hnod : (st.products.map Product.slug).Nodup)
    (hlen : (batchLookup st.products (items.map (fun i => i.slug))).length
      = (items.map (fun i => i.slug)).length) :
    (items.map (fun i => i.slug)).Nodup ∧
    ∀ i ∈ items,
      lookupSlug (batchLookup st.products (items.map (fun j => j.slug))) i.slug
        = lookupSlug st.products i.slug ∧
      ∃ p, lookupSlug st.products i.slug = some p := by
  obtain ⟨hnd, hall⟩ := batchLookup_length_eq hnod hlen
  refine ⟨hnd, fun i hi => ?_⟩
  have hmem : i.slug ∈ items.map (fun j => j.slug) := List.mem_map.mpr ⟨i, hi, rfl⟩
  refine ⟨batchLookup_lookup st.products (items.map (fun j => j.slug)) i.slug hmem, ?_⟩
  obtain ⟨p, hpmem, hps⟩ := hall i.slug hmem
  exact lookupSlug_isSome ⟨p, (batchLookup_mem hpmem).1, hps⟩

theorem checkout_success_spec {st : Store} {u : Nat} {items : List CheckoutItem}
    {oid : Nat} {st' : Store}
    (hnod : (st.products.map Product.slug).Nodup)
    (h : checkout st u (some items) = (.success oid, st')) :
    (items.map (fun i => i.slug)).Nodup ∧
    (∀ i ∈ items, ∃ p, lookupSlug st.products i.slug = some p ∧ normQty i.qty ≤ p.stock) ∧
    oid = st.nextSaleId ∧
    st'.sales = st.sales ++
      [{ id := st.nextSaleId, userId := u,
         total := (items.map (fun i => lookedUpPrice st.products i * normQty i.qty)).sum }] ∧
    st'.saleItems = st.saleItems ++ items.map (snapshotItem st.products st.nextSaleId) ∧
    st'.products = st.products.map (fun pr =>
      { pr with stock := pr.stock - stockDecrements st.products items pr.id }) ∧
    st'.carts = st.carts.map (fun c =>
      if c.userId == u && c.status == CartStatus.ACTIVE
      then { c with status := CartStatus.CHECKED_OUT } else c) ∧
    st'.cartItems = st.cartItems ∧
    st'.nextSaleId = st.nextSaleId + 1 ∧
    st'.nextCartId = st.nextCartId := by
  rcases checkout_cases st u (some items) with ⟨msg, he⟩ | he | ⟨items2, hb, hne, hlen, hok, he⟩
  · have hc := he.symm.trans h
    exact absurd hc (by simp)
  · have hc := he.symm.trans h
    exact absurd hc (by simp)
  · obtain rfl : items = items2 := by injection hb
    have hc := he.symm.trans h
    rw [Prod.mk.injEq] at hc
    have hoid : oid = st.nextSaleId := by
      have := hc.1
      injection this with h1
      exact h1.symm
    have hst' : st' =
        (applyTransaction st (batchLookup st.products (items.map (fun i => i.slug))) u items
          (computeTotal (batchLookup st.products (items.map (fun i => i.slug))) items)).1 :=
      hc.2.symm
    obtain ⟨hnd, hres⟩ := checkout_success_resolves hnod hlen
    have hcong : ∀ i ∈ items,
        lookupSlug (batchLookup st.products (items.map (fun j => j.slug))) i.slug
          = lookupSlug st.products i.slug := fun i hi => (hres i hi).1
    have hsome : ∀ i ∈ items, ∃ p, lookupSlug st.products i.slug = some p :=
      fun i hi => (hres i hi).2
    have hstock : ∀ i ∈ items, ∃ p, lookupSlug st.products i.slug = some p ∧
        normQty i.qty ≤ p.stock := by
      intro i hi
      obtain ⟨p, hp, hle⟩ := (stockLoop_ok_iff _ _).mp hok i hi
      exact ⟨p, (hcong i hi).symm.trans hp, hle⟩
    have htotal : computeTotal (batchLookup st.products (items.map (fun i => i.slug))) items =
        (items.map (fun i => lookedUpPrice st.products i * normQty i.qty)).sum := by
      rw [computeTotal_eq_sum]
      exact congrArg List.sum
        (List.map_congr_left (fun i hi => by rw [lookedUpPrice_congr (hcong i hi)]))
    have hsitems : items.filterMap
        (saleItemOf (batchLookup st.products (items.map (fun i => i.slug))) st.nextSaleId) =
        items.map (snapshotItem st.products st.nextSaleId) :=
      filterMap_saleItemOf_eq_map hcong hsome
    have hdec : st.products.map (fun pr =>
        { pr with stock := pr.stock -
            stockDecrements (batchLookup st.products (items.map (fun i => i.slug))) items pr.id }) =
        st.products.map (fun pr =>
          { pr with stock := pr.stock - stockDecrements st.products items pr.id }) :=
      List.map_congr_left (fun pr _ => by rw [stockDecrements_congr hcong])
    rw [hst', applyTransaction_fst]
    refine ⟨hnd, hstock, hoid, ?_, ?_, ?_, rfl, rfl, rfl, rfl⟩
    · dsimp only
      rw [htotal]
    · dsimp only
      rw [hsitems]
    · dsimp only
      rw [hdec]

/-- Products with equal slugs are the same row when the slug column is
duplicate-free. -/
theorem slug_inj {ps : List Product} (hnod : (ps.map Product.slug).Nodup)
    {p q : Product} (hp : p ∈ ps) (hq : q ∈ ps) (h : p.slug = q.slug) : p = q :=
  List.inj_on_of_nodup_map hnod hp hq h

/-! Concrete data used by the witnesses. -/

/-- A small concrete store mirroring the seeded catalog. -/
def demoStore : Store :=
  { products :=
      [ { id := 1, slug := "eco-bottle", name := "Eco Bottle", price := 1990, stock := 20 },
        { id := 2, slug := "tote", name := "Tote", price := 500, stock := 3 } ],
    carts := [ { id := 10, userId := 7, status := .ACTIVE } ],
    cartItems := [ { cartId := 10, productId := 1, qty := 2 } ],
    sales := [], saleItems := [], nextSaleId := 100, nextCartId := 11 }

/-- A valid checkout body against `demoStore`. -/
def demoItems : List CheckoutItem := [ { slug := "eco-bottle", qty := some 2 } ]

/-- A checkout body with an unknown slug. -/
def demoItemsUnknown : List CheckoutItem := [ { slug := "bamboo-brush", qty := some 1 } ]

/-- A checkout body listing the same existing slug twice. -/
def demoItemsDup : List CheckoutItem :=
  [ { slug := "eco-bottle", qty := some 1 }, { slug := "eco-bottle", qty := some 2 } ]

/-! Claim theorems. -/

/-- C1: every checkout request that fails validation — empty items list, an
item whose slug resolves to no product, or an item whose normalized
quantity exceeds the stock of its product — receives a 400 response, and
the store (orders, order items, stock, carts) is completely unchanged. -/
theorem checkout_invalid_request_rejected
    (st : Store) (u : Nat) (items : List CheckoutItem)
    (hnod : (st.products.map Product.slug).Nodup)
    (hbad : items = [] ∨
      (∃ i ∈ items, ∀ p ∈ st.products, p.slug ≠ i.slug) ∨
      (∃ i ∈ items, ∃ p ∈ st.products, p.slug = i.slug ∧ p.stock < normQty i.qty)) :
    (∃ msg, (checkout st u (some items)).1 = .badRequest msg) ∧
    (checkout st u (some items)).2 = st := by
  cases items with
  | nil => exact ⟨⟨"Empty cart", rfl⟩, rfl⟩
  | cons i0 rest =>
    by_cases hlen : (batchLookup st.products ((i0 :: rest).map (fun j => j.slug))).length
        ≠ ((i0 :: rest).map (fun j => j.slug)).length
    · rw [checkout_cons_eq, if_pos hlen]
      exact ⟨⟨"Unknown product in cart", rfl⟩, rfl⟩
    · have hleneq := not_ne_iff.mp hlen
      obtain ⟨hnd, hres⟩ := checkout_success_resolves hnod hleneq
      rcases hbad with hnil | ⟨i, hi, hunk⟩ | ⟨i, hi, p, hp, hslug, hlt⟩
      · exact absurd hnil (by simp)
      · obtain ⟨q, hq⟩ := (hres i hi).2
        obtain ⟨hqmem, hqslug⟩ := lookupSlug_eq_some hq
        exact absurd hqslug (hunk q hqmem)
      · have hcrash : stockLoop (batchLookup st.products ((i0 :: rest).map (fun j => j.slug)))
            (i0 :: rest) ≠ .crash := by
          refine stockLoop_not_crash _ _ (fun j hj => ?_)
          obtain ⟨q, hq⟩ := (hres j hj).2
          exact ⟨q, ((hres j hj).1).symm ▸ hq⟩
        have hnotok : stockLoop (batchLookup st.products ((i0 :: rest).map (fun j => j.slug)))
            (i0 :: rest) ≠ .ok := by
          intro hok
          obtain ⟨q, hq, hle⟩ := (stockLoop_ok_iff _ _).mp hok i hi
          have hq2 : lookupSlug st.products i.slug = some q := ((hres i hi).1).symm.trans hq
          obtain ⟨hqmem, hqslug⟩ := lookupSlug_eq_some hq2
          have : q = p := slug_inj hnod hqmem hp (hqslug.trans hslug.symm)
          rw [this] at hle
          exact absurd hle (not_le.mpr hlt)
        cases hsl : stockLoop (batchLookup st.products ((i0 :: rest).map (fun j => j.slug)))
            (i0 :: rest) with
        | crash => exact absurd hsl hcrash
        | ok => exact absurd hsl hnotok
        | insufficient n =>
          rw [checkout_cons_eq, if_neg hlen, hsl]
          exact ⟨⟨"Insufficient stock for " ++ n, rfl⟩, rfl⟩

/-- C1 witness: a request with an unknown slug against the demo store is
rejected with a 400 and leaves the store untouched. -/
theorem checkout_invalid_request_rejected_witness :
    ((demoStore.products.map Product.slug).Nodup ∧
      (∃ i ∈ demoItemsUnknown, ∀ p ∈ demoStore.products, p.slug ≠ i.slug)) ∧
    ((∃ msg, (checkout demoStore 7 (some demoItemsUnknown)).1 = .badRequest msg) ∧
      (checkout demoStore 7 (some demoItemsUnknown)).2 = demoStore) :=
  ⟨⟨by decide, by decide⟩,
   checkout_invalid_request_rejected demoStore 7 demoItemsUnknown (by decide)
     (Or.inr (Or.inl (by decide)))⟩

/-- C2: a successful checkout responds with the id of the newly created
sale, whose persisted total is the sum over the submitted items of the
batch-looked-up unit price times the normalized quantity, and every
created order item snapshots that same looked-up price. -/
theorem checkout_success_total_and_snapshots
    (st : Store) (u : Nat) (items : List CheckoutItem) (oid : Nat) (st' : Store)
    (hnod : (st.products.map Product.slug).Nodup)
    (h : checkout st u (some items) = (.success oid, st')) :
    oid = st.nextSaleId ∧
    st'.sales = st.sales ++
      [{ id := oid, userId := u,
         total := (items.map (fun i => lookedUpPrice st.products i * normQty i.qty)).sum }] ∧
    st'.saleItems = st.saleItems ++ items.map (snapshotItem st.products oid) ∧
    (∀ i ∈ items, ∃ p, lookupSlug st.products i.slug = some p ∧
      snapshotItem st.products oid i =
        { saleId := oid, productId := p.id, qty := normQty i.qty, price := p.price }) := by
  obtain ⟨-, hstock, hoid, hsales, hsi, -, -, -, -, -⟩ := checkout_success_spec hnod h
  subst hoid
  refine ⟨rfl, hsales, hsi, fun i hi => ?_⟩
  obtain ⟨p, hp, -⟩ := hstock i hi
  exact ⟨p, hp, by rw [snapshotItem, hp]⟩

/-- C2 witness: the demo checkout succeeds with sale id 100 and persists
total 2 × 1990 = 3980 (in cents). -/
theorem checkout_success_total_and_snapshots_witness :
    checkout demoStore 7 (some demoItems) =
      (.success 100, (checkout demoStore 7 (some demoItems)).2) ∧
    (checkout demoStore 7 (some demoItems)).2.sales = demoStore.sales ++
      [{ id := 100, userId := 7,
         total := (demoItems.map (fun i =>
           lookedUpPrice demoStore.products i * normQty i.qty)).sum }] :=
  ⟨by decide,
   (checkout_success_total_and_snapshots demoStore 7 demoItems 100
     (checkout demoStore 7 (some demoItems)).2 (by decide) (by decide)).2.1⟩

/-- C10: a checkout body listing the same product slug twice is rejected
with the 400 unknown-product error even though every slug resolves,
because the guard compares the count of resolved products with the count
of submitted items. -/
theorem checkout_duplicate_slug_rejected
    (st : Store) (u : Nat) (items : List CheckoutItem)
    (hnod : (st.products.map Product.slug).Nodup)
    (hdup : ¬ (items.map (fun i => i.slug)).Nodup)
    (hres : ∀ i ∈ items, ∃ p ∈ st.products, p.slug = i.slug) :
    checkout st u (some items) = (.badRequest "Unknown product in cart", st) := by
  cases items with
  | nil => exact absurd (by simp) hdup
  | cons i0 rest =>
    have hlt := batchLookup_length_lt_of_dup hnod hdup
    rw [checkout_cons_eq, if_pos (Nat.ne_of_lt hlt)]

/-- C10 witness: listing eco-bottle twice (an existing slug, total stock
available) is rejected as an unknown product. -/
theorem checkout_duplicate_slug_rejected_witness :
    ((demoStore.products.map Product.slug).Nodup ∧
      ¬ (demoItemsDup.map (fun i => i.slug)).Nodup ∧
      (∀ i ∈ demoItemsDup, ∃ p ∈ demoStore.products, p.slug = i.slug)) ∧
    checkout demoStore 7 (some demoItemsDup) = (.badRequest "Unknown product in cart", demoStore) :=
  ⟨⟨by decide, by decide, by decide⟩,
   checkout_duplicate_slug_rejected demoStore 7 demoItemsDup (by decide) (by decide) (by decide)⟩

/-! Bounding the per-product stock decrement. -/

theorem stockDecrements_zero {ps : List Product} {items : List CheckoutItem} {pid : Nat}
    (hnone : ∀ j ∈ items, ∀ p, lookupSlug ps j.slug = some p → p.id ≠ pid) :
    stockDecrements ps items pid = 0 := by
  induction items with
  | nil => rfl
  | cons i rest ih =>
    cases hl : lookupSlug ps i.slug with
    | none =>
      rw [stockDecrements_cons_none hl]
      exact ih (fun j hj => hnone j (List.mem_cons_of_mem i hj))
    | some p =>
      rw [stockDecrements_cons_some hl,
        if_neg (hnone i (List.mem_cons_self i rest) p hl), zero_add]
      exact ih (fun j hj => hnone j (List.mem_cons_of_mem i hj))

theorem stockDecrements_cases {ps : List Product} {items : List CheckoutItem}
    (hnd : (items.map (fun i => i.slug)).Nodup)
    (hinj : ∀ p q : Product, p ∈ ps → q ∈ ps → p.id = q.id → p = q)
    (pid : Nat) :
    stockDecrements ps items pid = 0 ∨
    ∃ i ∈ items, ∃ p, lookupSlug ps i.slug = some p ∧ p.id = pid ∧
      stockDecrements ps items pid = normQty i.qty := by
  induction items with
  | nil => exact Or.inl rfl
  | cons i rest ih =>
    rw [List.map_cons, List.nodup_cons] at hnd
    cases hl : lookupSlug ps i.slug with
    | none =>
      rcases ih hnd.2 with h0 | ⟨j, hj, p, hp, hpid, heq⟩
      · exact Or.inl (by rw [stockDecrements_cons_none hl, h0])
      · exact Or.inr ⟨j, List.mem_cons_of_mem i hj, p, hp, hpid,
          by rw [stockDecrements_cons_none hl, heq]⟩
    | some p =>
      by_cases hpid : p.id = pid
      · have hzero : stockDecrements ps rest pid = 0 := by
          refine stockDecrements_zero (fun j hj q hq hqid => ?_)
          have hqp : q = p := by
            refine hinj q p (lookupSlug_eq_some hq).1 (lookupSlug_eq_some hl).1 ?_
            rw [hqid, hpid]
          have hsl : j.slug = i.slug := by
            rw [← (lookupSlug_eq_some hq).2, hqp, (lookupSlug_eq_some hl).2]
          exact hnd.1 (hsl ▸ List.mem_map.mpr ⟨j, hj, rfl⟩)
        refine Or.inr ⟨i, List.mem_cons_self i rest, p, hl, hpid, ?_⟩
        rw [stockDecrements_cons_some hl, if_pos hpid, hzero, add_zero]
      · rcases ih hnd.2 with h0 | ⟨j, hj, q, hq, hqid, heq⟩
        · exact Or.inl (by rw [stockDecrements_cons_some hl, if_neg hpid, h0, zero_add])
        · exact Or.inr ⟨j, List.mem_cons_of_mem i hj, q, hq, hqid,
            by rw [stockDecrements_cons_some hl, if_neg hpid, heq, zero_add]⟩

/-- C3: a checkout executed sequentially never drives stock negative: if
every stock is nonnegative before the request, it stays nonnegative
afterwards, whether the request succeeds or fails. -/
theorem checkout_preserves_nonneg_stock
    (st : Store) (u : Nat) (body : Option (List CheckoutItem))
    (hslug : (st.products.map Product.slug).Nodup)
    (hid : (st.products.map Product.id).Nodup)
    (hpos : ∀ p ∈ st.products, 0 ≤ p.stock) :
    ∀ p ∈ (checkout st u body).2.products, 0 ≤ p.stock := by
  rcases checkout_cases st u body with ⟨msg, he⟩ | he | ⟨items, hb, -, -, -, he⟩
  · rw [he]; exact hpos
  · rw [he]; exact hpos
  · subst hb
    obtain ⟨hnd, hstock, -, -, -, hprod, -, -, -, -⟩ := checkout_success_spec hslug he
    intro p' hp'
    rw [he] at hp'
    rw [hprod] at hp'
    obtain ⟨pr, hpr, rfl⟩ := List.mem_map.mp hp'
    have hinj : ∀ p q : Product, p ∈ st.products → q ∈ st.products → p.id = q.id → p = q :=
      fun p q hp hq h => List.inj_on_of_nodup_map hid hp hq h
    rcases stockDecrements_cases hnd hinj pr.id with h0 | ⟨i, hi, q, hq, hqid, heq⟩
    · rw [h0, sub_zero]
      exact hpos pr hpr
    · rw [heq]
      obtain ⟨q2, hq2, hle⟩ := hstock i hi
      have hq2q : q2 = q := by
        rw [hq] at hq2
        injection hq2 with hv
        exact hv.symm
      have hqpr : q = pr := hinj q pr (lookupSlug_eq_some hq).1 hpr hqid
      rw [hq2q, hqpr] at hle
      exact sub_nonneg.mpr hle

/-- C3 witness: the demo checkout succeeds and all stocks stay
nonnegative. -/
theorem checkout_preserves_nonneg_stock_witness :
    ((demoStore.products.map Product.slug).Nodup ∧
      (demoStore.products.map Product.id).Nodup ∧
      (∀ p ∈ demoStore.products, 0 ≤ p.stock)) ∧
    (∀ p ∈ (checkout demoStore 7 (some demoItems)).2.products, 0 ≤ p.stock) :=
  ⟨⟨by decide, by decide, by decide⟩,
   checkout_preserves_nonneg_stock demoStore 7 (some demoItems) (by decide) (by decide) (by decide)⟩

/-- C4: each requested quantity normalizes to an integer at least 1
(defaulting to 1 on missing, non-numeric, or zero input), and a successful
checkout uses that one normalized value in the stock check, the persisted
order-item quantity, the stock decrement, and the total. -/
theorem checkout_quantity_normalization
    (st : Store) (u : Nat) (items : List CheckoutItem) (oid : Nat) (st' : Store)
    (hnod : (st.products.map Product.slug).Nodup)
    (h : checkout st u (some items) = (.success oid, st')) :
    (∀ q, 1 ≤ normQty q) ∧
    normQty none = 1 ∧ normQty (some 0) = 1 ∧
    (∀ i ∈ items, ∃ p, lookupSlug st.products i.slug = some p ∧
      normQty i.qty ≤ p.stock ∧
      (snapshotItem st.products oid i).qty = normQty i.qty) ∧
    st'.products = st.products.map (fun pr =>
      { pr with stock := pr.stock - stockDecrements st.products items pr.id }) ∧
    st'.sales = st.sales ++
      [{ id := oid, userId := u,
         total := (items.map (fun i => lookedUpPrice st.products i * normQty i.qty)).sum }] := by
  obtain ⟨-, hstock, hoid, hsales, -, hprod, -, -, -, -⟩ := checkout_success_spec hnod h
  subst hoid
  refine ⟨?_, rfl, rfl, fun i hi => ?_, hprod, hsales⟩
  · intro q
    cases q with
    | none => exact le_refl 1
    | some z => exact le_max_left 1 _
  · obtain ⟨p, hp, hle⟩ := hstock i hi
    refine ⟨p, hp, hle, ?_⟩
    rw [snapshotItem, hp]

/-- C4 witness: a negative submitted quantity still normalizes to at
least 1, exercised on a successful demo checkout. -/
theorem checkout_quantity_normalization_witness :
    checkout demoStore 7 (some demoItems) =
      (.success 100, (checkout demoStore 7 (some demoItems)).2) ∧
    1 ≤ normQty (some (-5)) :=
  ⟨by decide,
   (checkout_quantity_normalization demoStore 7 demoItems 100
     (checkout demoStore 7 (some demoItems)).2 (by decide) (by decide)).1 (some (-5))⟩

/-! Cart lifecycle lemmas. -/

/-- The ACTIVE carts a user owns (observation used by the invariant). -/
def activeCartsOf (st : Store) (u : Nat) : List Cart :=
  st.carts.filter (fun c => c.userId == u && c.status == CartStatus.ACTIVE)

theorem getOrCreateActiveCart_found {st : Store} {u : Nat} {c : Cart}
    (h : st.carts.find? (fun c => c.userId == u && c.status == CartStatus.ACTIVE) = some c) :
    getOrCreateActiveCart st u = (st, c) := by
  rw [getOrCreateActiveCart, h]

theorem getOrCreateActiveCart_new {st : Store} {u : Nat}
    (h : st.carts.find? (fun c => c.userId == u && c.status == CartStatus.ACTIVE) = none) :
    getOrCreateActiveCart st u =
      ({ st with
         carts := st.carts ++ [{ id := st.nextCartId, userId := u, status := .ACTIVE }],
         nextCartId := st.nextCartId + 1 },
       { id := st.nextCartId, userId := u, status := .ACTIVE }) := by
  rw [getOrCreateActiveCart, h]

theorem getOrCreateActiveCart_returns_active (st : Store) (v : Nat) :
    (getOrCreateActiveCart st v).2.userId = v ∧
    (getOrCreateActiveCart st v).2.status = .ACTIVE := by
  cases hf : st.carts.find? (fun c => c.userId == v && c.status == CartStatus.ACTIVE) with
  | none => rw [getOrCreateActiveCart_new hf]; exact ⟨rfl, rfl⟩
  | some c =>
    rw [getOrCreateActiveCart_found hf]
    have hp := List.find?_some hf
    simp only [Bool.and_eq_true, beq_iff_eq] at hp
    exact hp

theorem getOrCreateActiveCart_noop {st : Store} {v : Nat}
    (h : ∃ c ∈ st.carts, c.userId = v ∧ c.status = .ACTIVE) :
    (getOrCreateActiveCart st v).1 = st := by
  have hex : ∃ c ∈ st.carts, (fun c : Cart => c.userId == v && c.status == CartStatus.ACTIVE) c = true := by
    obtain ⟨c, hc, h1, h2⟩ := h
    exact ⟨c, hc, by simp [h1, h2]⟩
  obtain ⟨c, hf⟩ := Option.isSome_iff_exists.mp (List.find?_isSome.mpr hex)
  rw [getOrCreateActiveCart_found hf]

theorem getOrCreateActiveCart_active_le_one {st : Store}
    (hinv : ∀ v, (activeCartsOf st v).length ≤ 1) (u v : Nat) :
    (activeCartsOf (getOrCreateActiveCart st u).1 v).length ≤ 1 := by
  cases hf : st.carts.find? (fun c => c.userId == u && c.status == CartStatus.ACTIVE) with
  | some c => rw [getOrCreateActiveCart_found hf]; exact hinv v
  | none =>
    rw [getOrCreateActiveCart_new hf]
    simp only [activeCartsOf]
    rw [List.filter_append]
    by_cases huv : u = v
    · subst huv
      have hnil : st.carts.filter (fun c => c.userId == u && c.status == CartStatus.ACTIVE) = [] :=
        List.filter_eq_nil_iff.mpr (fun c hc hp => by
          rw [List.find?_eq_none] at hf
          exact hf c hc hp)
      rw [hnil]
      simp
    · have hone : ([({ id := st.nextCartId, userId := u, status := .ACTIVE } : Cart)].filter
          (fun c => c.userId == v && c.status == CartStatus.ACTIVE)) = [] := by
        simp [huv]
      rw [hone, List.append_nil]
      exact hinv v

theorem no_active_after_flip (cs : List Cart) (u : Nat) :
    (cs.map (fun c =>
      if c.userId == u && c.status == CartStatus.ACTIVE
      then { c with status := CartStatus.CHECKED_OUT } else c)).filter
      (fun c => c.userId == u && c.status == CartStatus.ACTIVE) = [] := by
  refine List.filter_eq_nil_iff.mpr (fun c hc => ?_)
  obtain ⟨c0, hc0, rfl⟩ := List.mem_map.mp hc
  by_cases h : (c0.userId == u && c0.status == CartStatus.ACTIVE) = true
  · rw [if_pos h]
    simp
  · rw [if_neg h]
    exact fun hb => h hb

/-- The at-most-one-ACTIVE-cart invariant needs checking only at users that
own a cart. -/
theorem active_le_one_of_carts {st : Store}
    (h : ∀ c ∈ st.carts, (activeCartsOf st c.userId).length ≤ 1) :
    ∀ v, (activeCartsOf st v).length ≤ 1 := by
  intro v
  cases hf : activeCartsOf st v with
  | nil => simp
  | cons c rest =>
    have hc : c ∈ activeCartsOf st v := hf ▸ List.mem_cons_self c rest
    have hcm := List.mem_filter.mp hc
    have hcv : c.userId = v := by
      have := hcm.2
      simp only [Bool.and_eq_true, beq_iff_eq] at this
      exact this.1
    have hlen := h c hcm.1
    rw [hcv] at hlen
    exact hf ▸ hlen

/-- C5: a user never holds two ACTIVE carts under sequential execution:
cart access creates a cart only when the user has no ACTIVE cart and always
returns an ACTIVE cart of that user, the at-most-one-ACTIVE-cart invariant
is preserved by cart access, and a successful checkout flips every ACTIVE
cart of the user to CHECKED_OUT, after which the next cart access creates
and returns a new, empty ACTIVE cart. -/
theorem single_active_cart_invariant
    (st : Store) (u : Nat) (body : Option (List CheckoutItem)) (oid : Nat) (st' : Store)
    (hinvB : ∀ c ∈ st.carts, (activeCartsOf st c.userId).length ≤ 1)
    (hfresh : ∀ c ∈ st.carts, c.id < st.nextCartId)
    (hitems : ∀ it ∈ st.cartItems, ∃ c ∈ st.carts, it.cartId = c.id)
    (hsucc : checkout st u body = (.success oid, st')) :
    (∀ v, (∃ c ∈ st.carts, c.userId = v ∧ c.status = .ACTIVE) →
      (getOrCreateActiveCart st v).1 = st) ∧
    (∀ v, (activeCartsOf st v).length ≤ 1) ∧
    (∀ v, (getOrCreateActiveCart st v).2.userId = v ∧
      (getOrCreateActiveCart st v).2.status = .ACTIVE) ∧
    (∀ v w, (activeCartsOf (getOrCreateActiveCart st v).1 w).length ≤ 1) ∧
    st'.carts = st.carts.map (fun c =>
      if c.userId == u && c.status == CartStatus.ACTIVE
      then { c with status := CartStatus.CHECKED_OUT } else c) ∧
    activeCartsOf st' u = [] ∧
    (getOrCreateActiveCart st' u).2 = { id := st.nextCartId, userId := u, status := .ACTIVE } ∧
    cartView (getOrCreateActiveCart st' u).1 (getOrCreateActiveCart st' u).2 =
      { cart := { id := st.nextCartId, userId := u, status := .ACTIVE }, items := [] } := by
  have hcarts : st'.carts = st.carts.map (fun c =>
      if c.userId == u && c.status == CartStatus.ACTIVE
      then { c with status := CartStatus.CHECKED_OUT } else c) ∧
      st'.cartItems = st.cartItems ∧ st'.nextCartId = st.nextCartId := by
    rcases checkout_cases st u body with ⟨msg, he⟩ | he | ⟨items, hb, -, -, -, he⟩
    · exact absurd (he.symm.trans hsucc) (by simp)
    · exact absurd (he.symm.trans hsucc) (by simp)
    · have hc := (he.symm.trans hsucc)
      rw [Prod.mk.injEq] at hc
      rw [← hc.2, applyTransaction_fst]
      exact ⟨rfl, rfl, rfl⟩
  have hinv := active_le_one_of_carts hinvB
  obtain ⟨hc, hci, hnc⟩ := hcarts
  have hnoact : activeCartsOf st' u = [] := by
    rw [activeCartsOf, hc]
    exact no_active_after_flip st.carts u
  have hfind : st'.carts.find?
      (fun c => c.userId == u && c.status == CartStatus.ACTIVE) = none :=
    List.find?_eq_none.mpr (fun c hcmem hp =>
      (List.filter_eq_nil_iff.mp hnoact) c hcmem hp)
  have hnew := getOrCreateActiveCart_new hfind
  refine ⟨fun v hv => getOrCreateActiveCart_noop hv, hinv,
    fun v => getOrCreateActiveCart_returns_active st v,
    fun v w => getOrCreateActiveCart_active_le_one hinv v w,
    hc, hnoact, ?_, ?_⟩
  · rw [hnew, hnc]
  · rw [hnew]
    rw [cartView]
    have hempty : ({ st' with
        carts := st'.carts ++ [{ id := st'.nextCartId, userId := u, status := .ACTIVE }],
        nextCartId := st'.nextCartId + 1 } : Store).cartItems.filter
        (fun it => it.cartId == ({ id := st'.nextCartId, userId := u, status := .ACTIVE } : Cart).id) = [] := by
      refine List.filter_eq_nil_iff.mpr (fun it hit hp => ?_)
      have hit' : it ∈ st.cartItems := by
        simpa [hci] using hit
      obtain ⟨c2, hc2, hcid⟩ := hitems it hit'
      have hlt := hfresh c2 hc2
      have : it.cartId = st'.nextCartId := by simpa using hp
      rw [hnc] at this
      omega
    rw [hempty, List.map_nil, hnc]

/-- C5 witness: the demo store satisfies the cart invariants and the demo
checkout succeeds; afterwards the user has no ACTIVE cart left. -/
theorem single_active_cart_invariant_witness :
    ((∀ c ∈ demoStore.carts, (activeCartsOf demoStore c.userId).length ≤ 1) ∧
      (∀ c ∈ demoStore.carts, c.id < demoStore.nextCartId) ∧
      (∀ it ∈ demoStore.cartItems, ∃ c ∈ demoStore.carts, it.cartId = c.id) ∧
      checkout demoStore 7 (some demoItems) =
        (.success 100, (checkout demoStore 7 (some demoItems)).2)) ∧
    activeCartsOf (checkout demoStore 7 (some demoItems)).2 7 = [] :=
  ⟨⟨by decide, by decide, by decide, by decide⟩,
   (single_active_cart_invariant demoStore 7 (some demoItems) 100
      (checkout demoStore 7 (some demoItems)).2
      (by decide) (by decide) (by decide) (by decide)).2.2.2.2.2.1⟩

/-! Cart line-item uniqueness lemmas. -/

/-- Number of cart lines stored for a (cart, product) pair. -/
def lineCount (st : Store) (cid pid : Nat) : Nat :=
  (st.cartItems.filter (fun it => it.cartId == cid && it.productId == pid)).length

theorem upsertLine_found {st : Store} {cid0 pid0 : Nat} {q : Int} {it0 : CartItem}
    (hf : st.cartItems.find? (fun it => it.cartId == cid0 && it.productId == pid0) = some it0) :
    upsertLine st cid0 pid0 q =
      { st with cartItems := st.cartItems.map (fun it =>
          if it.cartId == cid0 && it.productId == pid0
          then { it with qty := it0.qty + q } else it) } := by
  rw [upsertLine, hf]

theorem upsertLine_new {st : Store} {cid0 pid0 : Nat} {q : Int}
    (hf : st.cartItems.find? (fun it => it.cartId == cid0 && it.productId == pid0) = none) :
    upsertLine st cid0 pid0 q =
      { st with cartItems := st.cartItems ++ [{ cartId := cid0, productId := pid0, qty := q }] } := by
  rw [upsertLine, hf]

/-- The qty-only update of the manual upsert keeps every line on its
(cart, product) key, so key-based filters commute with it. -/
theorem filter_key_update (l : List CartItem) (cid0 pid0 cid pid : Nat) (g : CartItem → Int) :
    (l.map (fun it =>
      if it.cartId == cid0 && it.productId == pid0 then { it with qty := g it } else it)).filter
      (fun it => it.cartId == cid && it.productId == pid) =
    (l.filter (fun it => it.cartId == cid && it.productId == pid)).map (fun it =>
      if it.cartId == cid0 && it.productId == pid0 then { it with qty := g it } else it) := by
  rw [List.filter_map]
  refine congrArg _ (List.filter_congr (fun it _ => ?_))
  by_cases h : (it.cartId == cid0 && it.productId == pid0) = true
  · simp only [Function.comp, h, if_true]
  · simp only [Function.comp, h, Bool.false_eq_true, if_neg, if_false]

theorem lineCount_le_one_of_items {st : Store}
    (h : ∀ it ∈ st.cartItems, lineCount st it.cartId it.productId ≤ 1) :
    ∀ cid pid, lineCount st cid pid ≤ 1 := by
  intro cid pid
  cases hf : st.cartItems.filter (fun it => it.cartId == cid && it.productId == pid) with
  | nil => simp [lineCount, hf]
  | cons x rest =>
    have hx : x ∈ st.cartItems.filter (fun it => it.cartId == cid && it.productId == pid) :=
      hf ▸ List.mem_cons_self x rest
    have hm := List.mem_filter.mp hx
    have hkey : x.cartId = cid ∧ x.productId = pid := by
      have := hm.2
      simp only [Bool.and_eq_true, beq_iff_eq] at this
      exact this
    have hlen := h x hm.1
    rw [lineCount, hkey.1, hkey.2] at hlen
    exact hlen

theorem upsertLine_lineCount_le_one {st : Store} (cid0 pid0 : Nat) (q : Int)
    (hinv : ∀ cid pid, lineCount st cid pid ≤ 1) :
    ∀ cid pid, lineCount (upsertLine st cid0 pid0 q) cid pid ≤ 1 := by
  intro cid pid
  cases hf : st.cartItems.find? (fun it => it.cartId == cid0 && it.productId == pid0) with
  | some it0 =>
    rw [upsertLine_found hf, lineCount]
    show ((st.cartItems.map _).filter _).length ≤ 1
    rw [filter_key_update st.cartItems cid0 pid0 cid pid (fun it => it0.qty + q)]
    rw [List.length_map]
    exact hinv cid pid
  | none =>
    rw [upsertLine_new hf, lineCount]
    show ((st.cartItems ++ [({ cartId := cid0, productId := pid0, qty := q } : CartItem)]).filter _).length ≤ 1
    rw [List.filter_append]
    by_cases hkey : cid0 = cid ∧ pid0 = pid
    · obtain ⟨rfl, rfl⟩ := hkey
      have hnil : st.cartItems.filter (fun it => it.cartId == cid0 && it.productId == pid0) = [] :=
        List.filter_eq_nil_iff.mpr (fun it hit hp => by
          rw [List.find?_eq_none] at hf
          exact hf it hit hp)
      rw [hnil, List.nil_append]
      have hone : (([{ cartId := cid0, productId := pid0, qty := q }] : List CartItem).filter
          (fun it => it.cartId == cid0 && it.productId == pid0)).length ≤
          ([{ cartId := cid0, productId := pid0, qty := q }] : List CartItem).length :=
        (List.filter_sublist _).length_le
      exact hone
    · have hnil : (([{ cartId := cid0, productId := pid0, qty := q }] : List CartItem).filter
          (fun it => it.cartId == cid && it.productId == pid)) = [] := by
        refine List.filter_eq_nil_iff.mpr (fun it hit hp => ?_)
        have : it = { cartId := cid0, productId := pid0, qty := q } := by
          simpa using hit
        subst this
        simp only [Bool.and_eq_true, beq_iff_eq] at hp
        exact hkey hp
      rw [hnil, List.append_nil]
      exact hinv cid pid

theorem getOrCreateActiveCart_cartItems (st : Store) (u : Nat) :
    (getOrCreateActiveCart st u).1.cartItems = st.cartItems := by
  cases hf : st.carts.find? (fun c => c.userId == u && c.status == CartStatus.ACTIVE) with
  | some c => rw [getOrCreateActiveCart_found hf]
  | none => rw [getOrCreateActiveCart_new hf]

theorem lineCount_congr {st1 st2 : Store} (h : st1.cartItems = st2.cartItems) (cid pid : Nat) :
    lineCount st1 cid pid = lineCount st2 cid pid := by
  rw [lineCount, lineCount, h]

theorem cartAdd_some_eq (st : Store) (u pid : Nat) (qty : Option Int) (hpid : pid ≠ 0) :
    cartAdd st u (some pid) qty =
      (upsertLine (getOrCreateActiveCart st u).1 (getOrCreateActiveCart st u).2.id pid (normQty qty),
       .cartBody (refreshCart
         (upsertLine (getOrCreateActiveCart st u).1 (getOrCreateActiveCart st u).2.id pid (normQty qty))
         (getOrCreateActiveCart st u).2.id)) := by
  rw [cartAdd, if_neg hpid]

theorem cartMerge_eq (st : Store) (u : Nat) (body : Option (List GuestItem)) :
    cartMerge st u body =
      ((body.getD []).foldl (fun acc gi =>
          upsertLine acc (getOrCreateActiveCart st u).2.id gi.productId (normQty gi.qty))
        (getOrCreateActiveCart st u).1,
       .cartBody (refreshCart
         ((body.getD []).foldl (fun acc gi =>
            upsertLine acc (getOrCreateActiveCart st u).2.id gi.productId (normQty gi.qty))
          (getOrCreateActiveCart st u).1)
         (getOrCreateActiveCart st u).2.id)) := rfl

theorem foldl_upsert_lineCount_le_one (cid0 : Nat) (gis : List GuestItem) (st : Store)
    (hinv : ∀ cid pid, lineCount st cid pid ≤ 1) :
    ∀ cid pid, lineCount (gis.foldl (fun acc gi =>
      upsertLine acc cid0 gi.productId (normQty gi.qty)) st) cid pid ≤ 1 := by
  induction gis generalizing st with
  | nil => exact hinv
  | cons gi rest ih =>
    exact ih _ (upsertLine_lineCount_le_one cid0 gi.productId (normQty gi.qty) hinv)

theorem filter_of_find_unique {l : List CartItem} {p : CartItem → Bool} {x : CartItem}
    (hf : l.find? p = some x) (hle : (l.filter p).length ≤ 1) : l.filter p = [x] := by
  have hx : x ∈ l.filter p :=
    List.mem_filter.mpr ⟨List.mem_of_find?_eq_some hf, List.find?_some hf⟩
  cases hfl : l.filter p with
  | nil => rw [hfl] at hx; exact absurd hx (by simp)
  | cons y rest =>
    rw [hfl] at hx hle
    cases rest with
    | cons z zs => exact absurd hle (by simp)
    | nil =>
      have : x = y := by simpa using hx
      rw [this]

theorem upsertLine_found_filter {st : Store} {cid0 pid0 : Nat} {q : Int} {it0 : CartItem}
    (hf : st.cartItems.find? (fun it => it.cartId == cid0 && it.productId == pid0) = some it0)
    (hinv : ∀ cid pid, lineCount st cid pid ≤ 1) :
    (upsertLine st cid0 pid0 q).cartItems.filter
      (fun it => it.cartId == cid0 && it.productId == pid0) =
      [{ it0 with qty := it0.qty + q }] := by
  rw [upsertLine_found hf]
  show (st.cartItems.map _).filter _ = _
  rw [filter_key_update st.cartItems cid0 pid0 cid0 pid0 (fun it => it0.qty + q)]
  rw [filter_of_find_unique hf (hinv cid0 pid0)]
  rw [List.map_cons, List.map_nil, if_pos (List.find?_some hf)]

/-- C6: cart add and cart merge keep at most one line per (cart, product)
pair, and adding or merging a product already present updates the existing
line to the sum of the old and the normalized added quantity instead of
creating a second row. -/
theorem cart_line_uniqueness_and_increment
    (st : Store) (u : Nat) (c : Cart) (it0 : CartItem) (pid : Nat) (qty gqty : Option Int)
    (hinvB : ∀ it ∈ st.cartItems, lineCount st it.cartId it.productId ≤ 1)
    (hfc : st.carts.find? (fun c2 => c2.userId == u && c2.status == CartStatus.ACTIVE) = some c)
    (hline : st.cartItems.find? (fun it => it.cartId == c.id && it.productId == pid) = some it0)
    (hpid : pid ≠ 0) :
    (∀ pidOpt qty2 cid pid2, lineCount (cartAdd st u pidOpt qty2).1 cid pid2 ≤ 1) ∧
    (∀ body cid pid2, lineCount (cartMerge st u body).1 cid pid2 ≤ 1) ∧
    (cartAdd st u (some pid) qty).1.cartItems.filter
        (fun it => it.cartId == c.id && it.productId == pid)
      = [{ it0 with qty := it0.qty + normQty qty }] ∧
    (cartMerge st u (some [{ productId := pid, qty := gqty }])).1.cartItems.filter
        (fun it => it.cartId == c.id && it.productId == pid)
      = [{ it0 with qty := it0.qty + normQty gqty }] := by
  have hinv := lineCount_le_one_of_items hinvB
  have hgoc := getOrCreateActiveCart_found hfc
  have hinv1 : ∀ cid pid2, lineCount (getOrCreateActiveCart st u).1 cid pid2 ≤ 1 := by
    intro cid pid2
    rw [lineCount_congr (getOrCreateActiveCart_cartItems st u) cid pid2]
    exact hinv cid pid2
  refine ⟨?_, ?_, ?_, ?_⟩
  · intro pidOpt qty2 cid pid2
    cases pidOpt with
    | none => exact hinv cid pid2
    | some pid0 =>
      by_cases hp0 : pid0 = 0
      · subst hp0
        exact hinv cid pid2
      · rw [cartAdd_some_eq st u pid0 qty2 hp0]
        exact upsertLine_lineCount_le_one _ _ _ hinv1 cid pid2
  · intro body cid pid2
    rw [cartMerge_eq]
    exact foldl_upsert_lineCount_le_one _ _ _ hinv1 cid pid2
  · rw [cartAdd_some_eq st u pid qty hpid]
    rw [hgoc]
    exact upsertLine_found_filter hline hinv
  · rw [cartMerge_eq]
    rw [hgoc]
    show (upsertLine st c.id pid (normQty gqty)).cartItems.filter _ = _
    exact upsertLine_found_filter hline hinv

/-- C6 witness: adding two more eco-bottles to the demo cart that already
holds two keeps one line whose quantity becomes 2 + 3 = 5. -/
theorem cart_line_uniqueness_and_increment_witness :
    ((∀ it ∈ demoStore.cartItems, lineCount demoStore it.cartId it.productId ≤ 1) ∧
      demoStore.carts.find?
        (fun c2 => c2.userId == 7 && c2.status == CartStatus.ACTIVE) =
        some { id := 10, userId := 7, status := .ACTIVE } ∧
      demoStore.cartItems.find? (fun it => it.cartId == 10 && it.productId == 1) =
        some { cartId := 10, productId := 1, qty := 2 } ∧
      (1 : Nat) ≠ 0) ∧
    (cartAdd demoStore 7 (some 1) (some 3)).1.cartItems.filter
        (fun it => it.cartId == 10 && it.productId == 1)
      = [{ cartId := 10, productId := 1, qty := 2 + normQty (some 3) }] :=
  ⟨⟨by decide, by decide, by decide, by decide⟩,
   (cart_line_uniqueness_and_increment demoStore 7
      { id := 10, userId := 7, status := .ACTIVE }
      { cartId := 10, productId := 1, qty := 2 } 1 (some 3) none
      (by decide) (by decide) (by decide) (by decide)).2.2.1⟩

/-! Cart mutation responses. -/

theorem postReview_some_eq (db : ReviewDb) (name text : String) (s : Int) :
    postReview db name text (some s) =
      if name = "" ∨ text = "" ∨ s = 0 then (db, .badRequest "name, text, stars requis")
      else if s < 1 ∨ 5 < s then (db, .badRequest "stars doit être entre 1 et 5")
      else
        ({ reviews :=
             db.reviews ++
               [{ id := db.nextId, name := name, text := text, stars := s, published := false }],
           nextId := db.nextId + 1 },
         .created { id := db.nextId, name := name, text := text, stars := s, published := false }) :=
  rfl

theorem patchReview_some_eq (db : ReviewDb) (id : Nat) (name? text? : Option String)
    (s : Int) (published? : Option Bool) :
    patchReview db id name? text? (some s) published? =
      if s < 1 ∨ 5 < s then (db, .badRequest "stars doit être entre 1 et 5")
      else runReviewUpdate db id name? text? (some s) published? := rfl

/-- C8: a stars value outside [1, 5] is rejected with a 400 by both the
public submission route and the admin edit route, and in both cases the
review table is left unchanged. -/
theorem review_stars_range_rejected (db : ReviewDb) (s : Int) (hs : s < 1 ∨ 5 < s) :
    (∀ name text, ∃ m, postReview db name text (some s) = (db, .badRequest m)) ∧
    (∀ id name? text? published?,
      patchReview db id name? text? (some s) published? =
        (db, .badRequest "stars doit être entre 1 et 5")) := by
  constructor
  · intro name text
    rw [postReview_some_eq]
    by_cases h1 : name = "" ∨ text = "" ∨ s = 0
    · exact ⟨"name, text, stars requis", by rw [if_pos h1]⟩
    · exact ⟨"stars doit être entre 1 et 5", by rw [if_neg h1, if_pos hs]⟩
  · intro id name? text? published?
    rw [patchReview_some_eq, if_pos hs]

/-- A seeded review table for the witnesses. -/
def demoReviews : ReviewDb :=
  { reviews := [ { id := 1, name := "n", text := "t", stars := 3, published := true } ],
    nextId := 2 }

/-- C8 witness: stars = 7 is rejected by the admin edit route with the
table unchanged. -/
theorem review_stars_range_rejected_witness :
    ((7 : Int) < 1 ∨ 5 < (7 : Int)) ∧
    patchReview demoReviews 1 none none (some 7) none =
      (demoReviews, .badRequest "stars doit être entre 1 et 5") :=
  ⟨by decide, (review_stars_range_rejected demoReviews 7 (by decide)).2 1 none none none⟩

/-! Profile update (PATCH /api/me). -/

theorem patchMe_ok_inv {hash : String → String} {users : List User} {meId : Nat} {me : User}
    {n? e? : Option String} {cur : String} {np? : Option String}
    {users2 : List User} {pu : PublicUser} {ck : Option AuthClaims}
    (hfind : users.find? (fun u => u.id == meId) = some me)
    (h : patchMe hash users meId n? e? (some cur) np? = (users2, .ok pu ck)) :
    (pu = { id := me.id, email := me.email, name := me.name, admin := me.admin } ∧ ck = none) ∨
    (pu.email = (emailCandidate e? me.email).getD me.email ∧
      ck = (if (emailCandidate e? me.email).getD me.email ≠ me.email
        then some { id := me.id,
                    email := (emailCandidate e? me.email).getD me.email,
                    admin := me.admin }
        else none)) := by
  simp only [patchMe] at h
  split at h
  · exact absurd h (by simp)
  · rw [hfind] at h
    simp only [] at h
    split at h
    · exact absurd h (by simp)
    · split at h
      · exact absurd h (by simp)
      · split at h
        · rw [Prod.mk.injEq] at h
          have h2 := h.2
          rw [MeResult.ok.injEq] at h2
          exact Or.inl ⟨h2.1.symm, h2.2.symm⟩
        · rw [Prod.mk.injEq] at h
          have h2 := h.2
          rw [MeResult.ok.injEq] at h2
          refine Or.inr ⟨?_, ?_⟩
          · rw [← h2.1]
          · rw [← h2.2]

/-- C9: profile update demands the current secret (absent secret is a 400
with no change), rejects a wrong secret with no change, and re-issues the
signed credential exactly when the stored email changes — name-only or
password-only changes do not re-issue it. -/
theorem patchme_secret_and_cookie
    (hash : String → String) (users : List User) (meId : Nat) (me : User)
    (hfind : users.find? (fun u => u.id == meId) = some me) :
    (∀ n? e? np?, patchMe hash users meId n? e? none np? =
      (users, .badRequest "Mot de passe actuel requis")) ∧
    (∀ n? e? np? cur, cur ≠ "" → hash cur ≠ me.password →
      patchMe hash users meId n? e? (some cur) np? =
        (users, .unauthorized "Mot de passe actuel invalide")) ∧
    (∀ n? e? np? cur users2 pu ck,
      patchMe hash users meId n? e? (some cur) np? = (users2, .ok pu ck) →
      (ck.isSome ↔ pu.email ≠ me.email)) ∧
    (∀ n? np? cur users2 pu ck,
      patchMe hash users meId n? none (some cur) np? = (users2, .ok pu ck) →
      ck = none) := by
  refine ⟨fun n? e? np? => rfl, ?_, ?_, ?_⟩
  · intro n? e? np? cur hcur hne
    simp only [patchMe]
    rw [if_neg hcur, hfind]
    simp only []
    rw [if_pos hne]
  · intro n? e? np? cur users2 pu ck h
    rcases patchMe_ok_inv hfind h with ⟨hpu, hck⟩ | ⟨hpu, hck⟩
    · rw [hpu, hck]
      simp
    · rw [hpu, hck]
      by_cases hch : (emailCandidate e? me.email).getD me.email ≠ me.email
      · rw [if_pos hch]
        simpa using hch
      · rw [if_neg hch]
        simpa using hch
  · intro n? np? cur users2 pu ck h
    rcases patchMe_ok_inv hfind h with ⟨-, hck⟩ | ⟨-, hck⟩
    · exact hck
    · rw [hck]
      have hnone : emailCandidate none me.email = none := rfl
      rw [hnone]
      simp

/-- The abstract credential hash used by the witnesses. -/
def demoHash : String → String := fun s => s ++ "#h"

/-- A one-user table for the witnesses. -/
def demoUsers : List User :=
  [ { id := 7, email := "a@x", name := "Alice", admin := false, password := "pw#h" } ]

/-- C9 witness: omitting the current secret is rejected with a 400 and the
user table is untouched. -/
theorem patchme_secret_and_cookie_witness :
    demoUsers.find? (fun u => u.id == 7) =
      some { id := 7, email := "a@x", name := "Alice", admin := false, password := "pw#h" } ∧
    patchMe demoHash demoUsers 7 none none none none =
      (demoUsers, .badRequest "Mot de passe actuel requis") :=
  ⟨by decide,
   (patchme_secret_and_cookie demoHash demoUsers 7
      { id := 7, email := "a@x", name := "Alice", admin := false, password := "pw#h" }
      (by decide)).1 none none none⟩

end GreenGlow
